import Mathlib

/-!
Verification of the repository `devops-automation-scripts`.

Shallow embedding of the two tools of the repository:

* `aws_cost_report.py` — cost snapshots are finite maps from service name to
  amount, modelled as association lists `List (String × ℚ)` in dict insertion
  order (Python dict keys are unique; theorems that need this carry a
  `Nodup` hypothesis on the key list).  Python floats are idealised as `ℚ`;
  `round(x, 1)` and the `{x:.1f}` format both round half-to-even, which is
  implemented exactly on `ℚ`.

* `eks_resource_cleanup.py` — pod and job listings are records; the result of
  a `kubectl ... -o json` call is `Option (List _)`, `none` standing for a
  failed / unparseable listing (the `if not data:` branch).  The
  `datetime.fromisoformat` parse of a job's `creationTimestamp` string is
  modelled abstractly as an `Option Int` field (epoch seconds): `some t` for
  a string that parses to time `t`, `none` for a missing or malformed stamp
  (`ValueError` branch).  `timedelta(hours=h)` is `h * 3600` seconds.
  The external `kubectl delete` action is a parameter
  `deleteOk : DeleteCall → Bool` giving the success of each invocation, and
  the embedding additionally returns the list of delete invocations issued,
  so that remediation-gating properties can be stated.
-/

namespace AwsCost

/-- Round a rational to the nearest integer, ties to even
(the rounding mode of Python's `round` and of `float` formatting). -/
def round_half_even (x : ℚ) : ℤ :=
  let n := ⌊x⌋
  let frac := x - n
  if frac < 1/2 then n
  else if 1/2 < frac then n + 1
  else if n % 2 = 0 then n else n + 1

/-- Python `round(x, 1)`: round to one decimal place, ties to even. -/
def round1 (x : ℚ) : ℚ := (round_half_even (x * 10) : ℚ) / 10

/-- Python `f"{x:.1f}"`: render `x` rounded (half-to-even) to one decimal. -/
def fmt1 (x : ℚ) : String :=
  let n := round_half_even (x * 10)
  let sign := if x < 0 then "-" else ""
  let m := n.natAbs
  sign ++ toString (m / 10) ++ "." ++ toString (m % 10)

/-- One element of the list returned by `detect_anomalies`
(the dict literals appended to `anomalies` in `aws_cost_report.py`). -/
structure Anomaly where
  service : String
  current : ℚ
  previous : ℚ
  change_pct : ℚ
  reason : String
  deriving DecidableEq, Repr

/-- Python `previous.get(service, 0)`: dict lookup with default `0`. -/
def dictGet (previous : List (String × ℚ)) (service : String) : ℚ :=
  ((previous.lookup service).getD 0)

/-- The body of the `for service, current_cost in current.items()` loop of
`detect_anomalies`: the anomaly record appended for this entry, if any. -/
def classify1 (previous : List (String × ℚ)) (threshold_pct : ℚ)
    (kv : String × ℚ) : Option Anomaly :=
  let service := kv.1
  let current_cost := kv.2
  let previous_cost := dictGet previous service
  if previous_cost = 0 then
    if current_cost > 10 then
      some ⟨service, current_cost, previous_cost, 100,
        "New service with spend this month"⟩
    else
      none
  else
    let change_pct := (current_cost - previous_cost) / previous_cost * 100
    if change_pct ≥ threshold_pct then
      some ⟨service, current_cost, previous_cost, round1 change_pct,
        "Cost increased by " ++ fmt1 change_pct ++ "% vs last month"⟩
    else
      none

/-- The comparison passed to `sorted(..., key=lambda x: x["change_pct"],
reverse=True)`: a stable sort placing larger `change_pct` first. -/
def byChangeDesc (a b : Anomaly) : Bool := decide (b.change_pct ≤ a.change_pct)

/-- The function `detect_anomalies(current, previous, threshold_pct)` of
`aws_cost_report.py`: the loop builds `anomalies` in encounter order of
`current`, then the result is stably sorted by `change_pct` descending. -/
def detect_anomalies (current previous : List (String × ℚ))
    (threshold_pct : ℚ) : List Anomaly :=
  (current.filterMap (classify1 previous threshold_pct)).mergeSort byChangeDesc

/-- Exit code of `aws_cost_report.main` for a run that completes: `main`
contains no `sys.exit` call — anomalies only produce a log warning — so the
process exits `0` whatever the anomaly list is. -/
def aws_main_exit_code (anomalies : List Anomaly) : Nat :=
  let _ := anomalies
  0

end AwsCost

namespace EksCleanup

/-- One entry of `pod.status.containerStatuses`, with the fields the scan
reads: `cs["name"]`, `cs.get("state",{}).get("waiting",{}).get("reason","")`
(so a container with no waiting state carries `""`), and
`cs.get("restartCount", 0)`. -/
structure ContainerStatus where
  name : String
  waitingReason : String
  restartCount : Int
  deriving DecidableEq, Repr

/-- A pod item of the `kubectl get pods --all-namespaces` listing. -/
structure PodRecord where
  «namespace» : String
  name : String
  containerStatuses : List ContainerStatus
  deriving DecidableEq, Repr

/-- A `status.conditions` entry of a job; `c.get("type")` is `none` when the
`type` key is missing. -/
structure JobCondition where
  type : Option String
  deriving DecidableEq, Repr

/-- A job item of the `kubectl get jobs --all-namespaces` listing.
`creationTimestamp` models `datetime.fromisoformat` applied to
`job["metadata"].get("creationTimestamp", "")`: `some t` (epoch seconds) when
the string parses, `none` when it is missing or malformed (`ValueError`). -/
structure JobRecord where
  «namespace» : String
  name : String
  conditions : List JobCondition
  creationTimestamp : Option Int
  deriving DecidableEq, Repr

/-- The dict appended to `report.crashloop_pods`. -/
structure PodEntry where
  «namespace» : String
  pod : String
  container : String
  reason : String
  restarts : Int
  deriving DecidableEq, Repr

/-- The dict appended to `report.completed_jobs`. -/
structure JobEntry where
  «namespace» : String
  job : String
  created : Option Int
  deriving DecidableEq, Repr

/-- The `CleanupReport` dataclass.  `stale_namespaces` is declared in the
source but never written to by any function. -/
structure CleanupReport where
  crashloop_pods : List PodEntry
  stale_namespaces : List String
  completed_jobs : List JobEntry
  actions_taken : List String
  errors : List String
  deriving DecidableEq, Repr

/-- The fresh report built at the top of `main`. -/
def CleanupReport.empty : CleanupReport := ⟨[], [], [], [], []⟩

/-- One invocation of `kubectl_delete(resource_type, name, namespace,
dry_run)`. -/
structure DeleteCall where
  resource_type : String
  name : String
  «namespace» : String
  dry_run : Bool
  deriving DecidableEq, Repr

/-- The set `problem_states` of `find_crashloop_pods`. -/
def problem_states : List String :=
  ["CrashLoopBackOff", "Error", "OOMKilled", "ImagePullBackOff"]

/-- The flag condition of `find_crashloop_pods`:
`reason in problem_states or (reason == "CrashLoopBackOff" and restart_count > 5)`. -/
def flagContainer (cs : ContainerStatus) : Bool :=
  problem_states.contains cs.waitingReason ||
    (cs.waitingReason == "CrashLoopBackOff" && cs.restartCount > 5)

/-- Body of the `for cs in container_statuses` loop of `find_crashloop_pods`:
threads the report and the list of delete invocations issued so far.
`deleteOk` gives the success of each `kubectl_delete` invocation; on failure
`kubectl_delete` returns `False` after logging, and nothing is appended. -/
def process_container (deleteOk : DeleteCall → Bool) (dry_run delete : Bool)
    (podNs podName : String) (st : CleanupReport × List DeleteCall)
    (cs : ContainerStatus) : CleanupReport × List DeleteCall :=
  if flagContainer cs then
    let entry : PodEntry :=
      ⟨podNs, podName, cs.name, cs.waitingReason, cs.restartCount⟩
    let r1 := { st.1 with crashloop_pods := st.1.crashloop_pods ++ [entry] }
    if delete then
      let call : DeleteCall := ⟨"pod", podName, podNs, dry_run⟩
      let r2 :=
        if deleteOk call then
          { r1 with actions_taken := r1.actions_taken ++
              ["Deleted pod " ++ podNs ++ "/" ++ podName ++
                " (" ++ cs.waitingReason ++ ")"] }
        else r1
      (r2, st.2 ++ [call])
    else
      (r1, st.2)
  else
    st

/-- The function `find_crashloop_pods(report, dry_run, delete)`.  `data` is the parsed
result of `kubectl(["get", "pods", "--all-namespaces"])`; `none` is the
falsy case (`if not data:`), which records a source error and returns. -/
def find_crashloop_pods (deleteOk : DeleteCall → Bool)
    (data : Option (List PodRecord)) (report : CleanupReport)
    (dry_run delete : Bool) : CleanupReport × List DeleteCall :=
  match data with
  | none => ({ report with errors := report.errors ++ ["Failed to list pods"] }, [])
  | some items =>
    items.foldl
      (fun st pod =>
        pod.containerStatuses.foldl
          (process_container deleteOk dry_run delete pod.«namespace» pod.name)
          st)
      (report, [])

/-- Body of the `for job in data.get("items", [])` loop of
`find_completed_jobs`: a job with an unparseable timestamp is skipped
(`continue` on `ValueError`); otherwise it is flagged when it has a
`Complete`/`Failed` condition and `creation_time < cutoff`. -/
def process_job (deleteOk : DeleteCall → Bool) (cutoff : Int)
    (dry_run delete : Bool) (st : CleanupReport × List DeleteCall)
    (job : JobRecord) : CleanupReport × List DeleteCall :=
  match job.creationTimestamp with
  | none => st
  | some creation_time =>
    let is_complete := job.conditions.any
      (fun c => c.type == some "Complete" || c.type == some "Failed")
    if is_complete && creation_time < cutoff then
      let entry : JobEntry := ⟨job.«namespace», job.name, job.creationTimestamp⟩
      let r1 := { st.1 with completed_jobs := st.1.completed_jobs ++ [entry] }
      if delete then
        let call : DeleteCall := ⟨"job", job.name, job.«namespace», dry_run⟩
        let r2 :=
          if deleteOk call then
            { r1 with actions_taken := r1.actions_taken ++
                ["Deleted job " ++ job.«namespace» ++ "/" ++ job.name] }
          else r1
        (r2, st.2 ++ [call])
      else
        (r1, st.2)
    else
      st

/-- The function `find_completed_jobs(report, max_age_hours, dry_run, delete)`.  `now` is
`datetime.now(timezone.utc)` in epoch seconds; the cutoff is
`now - timedelta(hours=max_age_hours)`. -/
def find_completed_jobs (deleteOk : DeleteCall → Bool)
    (data : Option (List JobRecord)) (report : CleanupReport)
    (now max_age_hours : Int) (dry_run delete : Bool) :
    CleanupReport × List DeleteCall :=
  match data with
  | none => ({ report with errors := report.errors ++ ["Failed to list jobs"] }, [])
  | some items =>
    items.foldl (process_job deleteOk (now - max_age_hours * 3600) dry_run delete)
      (report, [])

/-- The pod entries contributed by the flagged containers of one listing,
in scan order: one entry per container satisfying the flag condition. -/
def flaggedEntries (podNs podName : String) (css : List ContainerStatus) :
    List PodEntry :=
  css.filterMap (fun cs =>
    if flagContainer cs then
      some ⟨podNs, podName, cs.name, cs.waitingReason, cs.restartCount⟩
    else none)

/-- The pod entries contributed by one pod record. -/
def podEntries (pod : PodRecord) : List PodEntry :=
  flaggedEntries pod.«namespace» pod.name pod.containerStatuses

/-- The delete invocation issued for a pod entry. -/
def podCall (dry_run : Bool) (e : PodEntry) : DeleteCall :=
  ⟨"pod", e.pod, e.«namespace», dry_run⟩

/-- The `actions_taken` line recorded for a successfully deleted pod. -/
def podMsg (e : PodEntry) : String :=
  "Deleted pod " ++ e.«namespace» ++ "/" ++ e.pod ++ " (" ++ e.reason ++ ")"

/-- The `actions_taken` lines of a pod scan. -/
def podActs (deleteOk : DeleteCall → Bool) (dry_run delete : Bool)
    (items : List PodRecord) : List String :=
  if delete then
    (items.flatMap podEntries).filterMap
      (fun e => if deleteOk (podCall dry_run e) then some (podMsg e) else none)
  else []

/-- The delete invocations of a pod scan. -/
def podCallsOf (deleteOk : DeleteCall → Bool) (dry_run delete : Bool)
    (items : List PodRecord) : List DeleteCall :=
  let _ := deleteOk
  if delete then (items.flatMap podEntries).map (podCall dry_run) else []

/-- The job entry contributed by one job record, if any: skipped on a
missing/malformed timestamp, flagged when terminal and older than the
cutoff. -/
def staleJobEntry (cutoff : Int) (job : JobRecord) : Option JobEntry :=
  match job.creationTimestamp with
  | none => none
  | some creation_time =>
    if (job.conditions.any
          (fun c => c.type == some "Complete" || c.type == some "Failed"))
        && creation_time < cutoff then
      some ⟨job.«namespace», job.name, job.creationTimestamp⟩
    else none

/-- The delete invocation issued for a stale-job entry. -/
def jobCall (dry_run : Bool) (e : JobEntry) : DeleteCall :=
  ⟨"job", e.job, e.«namespace», dry_run⟩

/-- The `actions_taken` line recorded for a successfully deleted job. -/
def jobMsg (e : JobEntry) : String :=
  "Deleted job " ++ e.«namespace» ++ "/" ++ e.job

/-- The `actions_taken` lines of a job scan. -/
def jobActs (deleteOk : DeleteCall → Bool) (cutoff : Int) (dry_run delete : Bool)
    (items : List JobRecord) : List String :=
  if delete then
    (items.filterMap (staleJobEntry cutoff)).filterMap
      (fun e => if deleteOk (jobCall dry_run e) then some (jobMsg e) else none)
  else []

/-- The delete invocations of a job scan. -/
def jobCallsOf (deleteOk : DeleteCall → Bool) (cutoff : Int)
    (dry_run delete : Bool) (items : List JobRecord) : List DeleteCall :=
  let _ := deleteOk
  if delete then (items.filterMap (staleJobEntry cutoff)).map (jobCall dry_run)
  else []

/-- The exit decision at the end of `eks_resource_cleanup.main`:
`if report.crashloop_pods or report.errors: sys.exit(1)`, otherwise the
process exits `0`.  Note `completed_jobs` does not participate. -/
def eks_exit_code (report : CleanupReport) : Nat :=
  if report.crashloop_pods.isEmpty && report.errors.isEmpty then 0 else 1

/-- The scanning part of `eks_resource_cleanup.main` after kubeconfig
bootstrapping: runs the two scans in order on a fresh report and pairs the
final report with the delete invocations of each scan and the exit code. -/
def eks_main (deleteOk : DeleteCall → Bool)
    (podsData : Option (List PodRecord)) (jobsData : Option (List JobRecord))
    (dry_run delete_crashloop delete_jobs : Bool) (now job_max_age_hours : Int) :
    CleanupReport × List DeleteCall × Nat :=
  let s1 := find_crashloop_pods deleteOk podsData CleanupReport.empty
    dry_run delete_crashloop
  let s2 := find_completed_jobs deleteOk jobsData s1.1 now job_max_age_hours
    dry_run delete_jobs
  (s2.1, s1.2 ++ s2.2, eks_exit_code s2.1)

end EksCleanup

namespace AwsCost

/-- The function `classify1` only ever emits a record for the key of the entry it reads. -/
lemma classify1_service {previous : List (String × ℚ)} {t : ℚ}
    {kv : String × ℚ} {a : Anomaly}
    (h : classify1 previous t kv = some a) : a.service = kv.1 := by
  simp only [classify1] at h
  split at h <;> split at h <;> simp_all
  all_goals subst h
  all_goals rfl

/-- Computation of `classify1` in the new-service branch. -/
lemma classify1_new {previous : List (String × ℚ)} {t : ℚ} {s : String} {c : ℚ}
    (h0 : dictGet previous s = 0) (h10 : c > 10) :
    classify1 previous t (s, c)
      = some ⟨s, c, 0, 100, "New service with spend this month"⟩ := by
  simp [classify1, h0, h10]

/-- Computation of `classify1` when a new service is below the floor. -/
lemma classify1_new_none {previous : List (String × ℚ)} {t : ℚ} {s : String}
    {c : ℚ} (h0 : dictGet previous s = 0) (h10 : ¬ c > 10) :
    classify1 previous t (s, c) = none := by
  simp [classify1, h0, h10]

/-- Computation of `classify1` in the increase branch. -/
lemma classify1_inc {previous : List (String × ℚ)} {t : ℚ} {s : String} {c : ℚ}
    (h0 : dictGet previous s ≠ 0)
    (hge : (c - dictGet previous s) / dictGet previous s * 100 ≥ t) :
    classify1 previous t (s, c)
      = some ⟨s, c, dictGet previous s,
          round1 ((c - dictGet previous s) / dictGet previous s * 100),
          "Cost increased by " ++ fmt1 ((c - dictGet previous s) / dictGet previous s * 100)
            ++ "% vs last month"⟩ := by
  simp [classify1, h0, hge]

/-- Computation of `classify1` below the threshold. -/
lemma classify1_inc_none {previous : List (String × ℚ)} {t : ℚ} {s : String}
    {c : ℚ} (h0 : dictGet previous s ≠ 0)
    (hge : ¬ (c - dictGet previous s) / dictGet previous s * 100 ≥ t) :
    classify1 previous t (s, c) = none := by
  simp [classify1, h0, hge]

/-- No record for key `s` comes from entries whose key is not `s`. -/
lemma filter_service_of_not_mem {previous : List (String × ℚ)} {t : ℚ}
    {s : String} :
    ∀ {l : List (String × ℚ)}, (∀ kv ∈ l, kv.1 ≠ s) →
    (l.filterMap (classify1 previous t)).filter (fun a => a.service == s) = [] := by
  intro l
  induction l with
  | nil => intro _; simp
  | cons kv l ih =>
    intro h
    rw [List.filterMap_cons]
    cases hc : classify1 previous t kv with
    | none => exact ih (fun x hx => h x (List.mem_cons_of_mem _ hx))
    | some a =>
      rw [List.filter_cons]
      have hne : (a.service == s) = false := by
        simp only [beq_eq_false_iff_ne, ne_eq, classify1_service hc]
        exact h kv (List.mem_cons_self _ _)
      rw [hne]
      simp only [Bool.false_eq_true, if_false]
      exact ih (fun x hx => h x (List.mem_cons_of_mem _ hx))

/-- With distinct keys, the records for key `s` are exactly what `classify1`
yields on the unique entry of `s`. -/
lemma filter_service_filterMap {previous : List (String × ℚ)} {t : ℚ} :
    ∀ {l : List (String × ℚ)} {s : String} {c : ℚ},
    (l.map Prod.fst).Nodup → (s, c) ∈ l →
    (l.filterMap (classify1 previous t)).filter (fun a => a.service == s)
      = (classify1 previous t (s, c)).toList := by
  intro l
  induction l with
  | nil => intro s c _ hmem; cases hmem
  | cons kv l ih =>
    intro s c hnd hmem
    rw [List.map_cons, List.nodup_cons] at hnd
    rcases List.mem_cons.mp hmem with heq | hmem'
    · subst heq
      rw [List.filterMap_cons]
      have htail : (∀ x ∈ l, x.1 ≠ s) := by
        intro x hx hxs
        have hx1 : x.1 ∈ l.map Prod.fst := List.mem_map_of_mem Prod.fst hx
        rw [hxs] at hx1
        exact hnd.1 hx1
      cases hc : classify1 previous t (s, c) with
      | none =>
        simpa [Option.toList] using filter_service_of_not_mem htail
      | some a =>
        rw [List.filter_cons]
        have hsv : (a.service == s) = true := by
          simp [classify1_service hc]
        rw [hsv]
        simp only [if_true, Option.toList]
        rw [filter_service_of_not_mem htail]
    · have hks : kv.1 ≠ s := by
        intro h
        have hs1 : s ∈ l.map Prod.fst := List.mem_map_of_mem Prod.fst hmem'
        rw [← h] at hs1
        exact hnd.1 hs1
      rw [List.filterMap_cons]
      cases hc : classify1 previous t kv with
      | none => exact ih hnd.2 hmem'
      | some a =>
        rw [List.filter_cons]
        have hne : (a.service == s) = false := by
          simp only [beq_eq_false_iff_ne, ne_eq, classify1_service hc]
          exact hks
        rw [hne]
        simp only [Bool.false_eq_true, if_false]
        exact ih hnd.2 hmem'

/-- Count of findings for one key, through the final sort. -/
lemma detect_anomalies_countP_key {current previous : List (String × ℚ)}
    {t : ℚ} {s : String} {c : ℚ}
    (hnd : (current.map Prod.fst).Nodup) (hmem : (s, c) ∈ current) :
    (detect_anomalies current previous t).countP (fun a => a.service == s)
      = (classify1 previous t (s, c)).toList.length := by
  unfold detect_anomalies
  rw [(List.mergeSort_perm (current.filterMap (classify1 previous t)) byChangeDesc).countP_eq]
  rw [List.countP_eq_length_filter, filter_service_filterMap hnd hmem]

/-- The record produced for a key occurs exactly once in the result. -/
lemma detect_anomalies_count_eq {current previous : List (String × ℚ)}
    {t : ℚ} {s : String} {c : ℚ} {a : Anomaly}
    (hnd : (current.map Prod.fst).Nodup) (hmem : (s, c) ∈ current)
    (hc : classify1 previous t (s, c) = some a) :
    (detect_anomalies current previous t).count a = 1 := by
  have ha : (fun x : Anomaly => x.service == s) a = true := by
    simp [classify1_service hc]
  unfold detect_anomalies
  rw [(List.mergeSort_perm (current.filterMap (classify1 previous t)) byChangeDesc).count_eq]
  rw [← List.count_filter (p := fun x : Anomaly => x.service == s) (a := a) ha]
  rw [filter_service_filterMap hnd hmem, hc]
  simp

/-- Transitivity of `byChangeDesc`. -/
lemma byChangeDesc_trans : ∀ (a b c : Anomaly),
    byChangeDesc a b → byChangeDesc b c → byChangeDesc a c := by
  intro a b c hab hbc
  simp only [byChangeDesc, decide_eq_true_eq] at *
  exact le_trans hbc hab

/-- Totality of `byChangeDesc`. -/
lemma byChangeDesc_total : ∀ (a b : Anomaly),
    byChangeDesc a b || byChangeDesc b a := by
  intro a b
  simp only [byChangeDesc, Bool.or_eq_true, decide_eq_true_eq]
  exact le_total _ _

/-- The output of `detect_anomalies` is sorted by descending `change_pct`. -/
lemma detect_anomalies_pairwise (current previous : List (String × ℚ)) (t : ℚ) :
    (detect_anomalies current previous t).Pairwise
      (fun a b => b.change_pct ≤ a.change_pct) := by
  have h := List.sorted_mergeSort byChangeDesc_trans byChangeDesc_total
    (current.filterMap (classify1 previous t))
  exact h.imp (fun hab => by simpa [byChangeDesc] using hab)

/-- Stability: within one value of `change_pct`, the sort preserves the
encounter order of the unsorted list. -/
lemma detect_anomalies_filter_pct (current previous : List (String × ℚ))
    (t : ℚ) (q : ℚ) :
    (detect_anomalies current previous t).filter (fun a => a.change_pct == q)
      = (current.filterMap (classify1 previous t)).filter (fun a => a.change_pct == q) := by
  set L := current.filterMap (classify1 previous t) with hL
  have hall : ∀ a ∈ L.filter (fun a => a.change_pct == q), a.change_pct = q := by
    intro a ha
    have := List.of_mem_filter ha
    simpa using this
  have hpair : (L.filter (fun a => a.change_pct == q)).Pairwise
      (fun a b => byChangeDesc a b = true) := by
    apply List.pairwise_of_forall_mem_list
    intro a ha b hb
    simp only [byChangeDesc, decide_eq_true_eq, hall a ha, hall b hb]
    exact le_refl q
  have hsub : List.Sublist (L.filter (fun a => a.change_pct == q))
      (detect_anomalies current previous t) := by
    unfold detect_anomalies
    exact List.sublist_mergeSort byChangeDesc_trans byChangeDesc_total hpair
      (List.filter_sublist L)
  have hsub2 : List.Sublist (L.filter (fun a => a.change_pct == q))
      ((detect_anomalies current previous t).filter (fun a => a.change_pct == q)) := by
    have h := hsub.filter (fun a => a.change_pct == q)
    have heq : (L.filter (fun a => a.change_pct == q)).filter
        (fun a => a.change_pct == q) = L.filter (fun a => a.change_pct == q) := by
      rw [List.filter_filter]
      apply List.filter_congr
      intro a _
      rw [Bool.and_self]
    rwa [heq] at h
  have hlen : ((detect_anomalies current previous t).filter
      (fun a => a.change_pct == q)).length
      = (L.filter (fun a => a.change_pct == q)).length := by
    unfold detect_anomalies
    exact ((List.mergeSort_perm L byChangeDesc).filter _).length_eq
  exact (hsub2.eq_of_length hlen.symm).symm

end AwsCost

namespace EksCleanup

/-- Unfolding of the inner `for cs in container_statuses` loop. -/
lemma foldl_process_container (deleteOk : DeleteCall → Bool)
    (dry_run delete : Bool) (podNs podName : String) :
    ∀ (css : List ContainerStatus) (st : CleanupReport × List DeleteCall),
    css.foldl (process_container deleteOk dry_run delete podNs podName) st =
      ({ st.1 with
          crashloop_pods := st.1.crashloop_pods ++ flaggedEntries podNs podName css,
          actions_taken := st.1.actions_taken ++
            (if delete then
              (flaggedEntries podNs podName css).filterMap
                (fun e => if deleteOk (podCall dry_run e) then some (podMsg e) else none)
             else []) },
       st.2 ++ (if delete then (flaggedEntries podNs podName css).map (podCall dry_run) else [])) := by
  intro css
  induction css with
  | nil =>
    intro st
    obtain ⟨⟨c, s, j, a, e⟩, calls⟩ := st
    simp [flaggedEntries]
  | cons cs css ih =>
    intro st
    rw [List.foldl_cons, ih]
    obtain ⟨⟨c, s, j, a, e⟩, calls⟩ := st
    cases hf : flagContainer cs with
    | false =>
      simp [process_container, flaggedEntries, List.filterMap_cons, hf]
    | true =>
      cases hd : delete with
      | false =>
        simp [process_container, flaggedEntries, List.filterMap_cons, hf, hd,
          podCall, podMsg]
      | true =>
        cases hok : deleteOk ⟨"pod", podName, podNs, dry_run⟩ with
        | false =>
          simp [process_container, flaggedEntries, List.filterMap_cons, hf, hd,
            hok, podCall, podMsg]
        | true =>
          simp [process_container, flaggedEntries, List.filterMap_cons, hf, hd,
            hok, podCall, podMsg]

/-- Full characterization of a pod scan on a successful listing: the findings
are the flagged containers in scan order, the recorded actions are the
successful deletions, and the delete invocations are one per finding when
requested. -/
lemma find_crashloop_pods_eq (deleteOk : DeleteCall → Bool)
    (items : List PodRecord) (report : CleanupReport) (dry_run delete : Bool) :
    find_crashloop_pods deleteOk (some items) report dry_run delete =
      ({ report with
          crashloop_pods := report.crashloop_pods ++ items.flatMap podEntries,
          actions_taken := report.actions_taken ++ podActs deleteOk dry_run delete items },
       podCallsOf deleteOk dry_run delete items) := by
  rw [find_crashloop_pods]
  suffices h : ∀ (l : List PodRecord) (st : CleanupReport × List DeleteCall),
      l.foldl
        (fun st pod =>
          pod.containerStatuses.foldl
            (process_container deleteOk dry_run delete pod.«namespace» pod.name) st)
        st =
      ({ st.1 with
          crashloop_pods := st.1.crashloop_pods ++ l.flatMap podEntries,
          actions_taken := st.1.actions_taken ++ podActs deleteOk dry_run delete l },
       st.2 ++ podCallsOf deleteOk dry_run delete l) by
    rw [h items (report, [])]
    simp
  intro l
  induction l with
  | nil =>
    intro st
    obtain ⟨⟨c, s, j, a, e⟩, calls⟩ := st
    simp [podActs, podCallsOf]
  | cons pod l ih =>
    intro st
    rw [List.foldl_cons, foldl_process_container, ih]
    obtain ⟨⟨c, s, j, a, e⟩, calls⟩ := st
    cases hd : delete with
    | false =>
      simp [podActs, podCallsOf, podEntries, hd]
    | true =>
      simp [podActs, podCallsOf, podEntries, hd, List.flatMap_cons]

/-- Full characterization of a job scan on a successful listing. -/
lemma find_completed_jobs_eq (deleteOk : DeleteCall → Bool)
    (items : List JobRecord) (report : CleanupReport)
    (now max_age_hours : Int) (dry_run delete : Bool) :
    find_completed_jobs deleteOk (some items) report now max_age_hours dry_run delete =
      ({ report with
          completed_jobs := report.completed_jobs ++
            items.filterMap (staleJobEntry (now - max_age_hours * 3600)),
          actions_taken := report.actions_taken ++
            jobActs deleteOk (now - max_age_hours * 3600) dry_run delete items },
       jobCallsOf deleteOk (now - max_age_hours * 3600) dry_run delete items) := by
  rw [find_completed_jobs]
  suffices h : ∀ (l : List JobRecord) (st : CleanupReport × List DeleteCall),
      l.foldl (process_job deleteOk (now - max_age_hours * 3600) dry_run delete) st =
      ({ st.1 with
          completed_jobs := st.1.completed_jobs ++
            l.filterMap (staleJobEntry (now - max_age_hours * 3600)),
          actions_taken := st.1.actions_taken ++
            jobActs deleteOk (now - max_age_hours * 3600) dry_run delete l },
       st.2 ++ jobCallsOf deleteOk (now - max_age_hours * 3600) dry_run delete l) by
    rw [h items (report, [])]
    simp
  generalize now - max_age_hours * 3600 = cutoff
  intro l
  induction l with
  | nil =>
    intro st
    obtain ⟨⟨c, s, j, a, e⟩, calls⟩ := st
    simp [jobActs, jobCallsOf]
  | cons job l ih =>
    intro st
    rw [List.foldl_cons, ih]
    obtain ⟨⟨c, s, j, a, e⟩, calls⟩ := st
    cases hts : job.creationTimestamp with
    | none =>
      simp [process_job, staleJobEntry, jobActs, jobCallsOf, List.filterMap_cons, hts]
    | some t =>
      cases hcomp : (job.conditions.any
          (fun c => c.type == some "Complete" || c.type == some "Failed")) && t < cutoff with
      | false =>
        simp [process_job, staleJobEntry, jobActs, jobCallsOf, List.filterMap_cons,
          hts, hcomp]
      | true =>
        cases hd : delete with
        | false =>
          simp [process_job, staleJobEntry, jobActs, jobCallsOf, List.filterMap_cons,
            hts, hcomp, hd, jobCall, jobMsg]
        | true =>
          cases hok : deleteOk ⟨"job", job.name, job.«namespace», dry_run⟩ with
          | false =>
            simp [process_job, staleJobEntry, jobActs, jobCallsOf,
              List.filterMap_cons, hts, hcomp, hd, hok, jobCall, jobMsg]
          | true =>
            simp [process_job, staleJobEntry, jobActs, jobCallsOf,
              List.filterMap_cons, hts, hcomp, hd, hok, jobCall, jobMsg]

/-- The flag condition, as a proposition. -/
lemma flagContainer_iff (cs : ContainerStatus) :
    flagContainer cs = true ↔
      (cs.waitingReason ∈ ["CrashLoopBackOff", "Error", "OOMKilled", "ImagePullBackOff"]
        ∨ (cs.waitingReason = "CrashLoopBackOff" ∧ cs.restartCount > 5)) := by
  simp [flagContainer, problem_states]

/-- One pod entry per flagged container. -/
lemma length_flaggedEntries (podNs podName : String)
    (css : List ContainerStatus) :
    (flaggedEntries podNs podName css).length = css.countP flagContainer := by
  rw [flaggedEntries, List.length_filterMap_eq_countP]
  apply List.countP_congr
  intro cs _
  by_cases h : flagContainer cs <;> simp [h]

/-- Every entry contributed by a container scan names the scanned pod. -/
lemma mem_flaggedEntries {podNs podName : String} {css : List ContainerStatus}
    {e : PodEntry} (h : e ∈ flaggedEntries podNs podName css) :
    e.«namespace» = podNs ∧ e.pod = podName := by
  rw [flaggedEntries] at h
  obtain ⟨cs, _, hc⟩ := List.mem_filterMap.mp h
  split at hc
  · cases hc
    exact ⟨rfl, rfl⟩
  · cases hc

/-- The delete invocations of one pod's flagged containers all target that
pod: one identical call per flagged container. -/
lemma map_podCall_flaggedEntries (dry_run : Bool) (podNs podName : String)
    (css : List ContainerStatus) :
    (flaggedEntries podNs podName css).map (podCall dry_run)
      = List.replicate (css.countP flagContainer) ⟨"pod", podName, podNs, dry_run⟩ := by
  rw [← length_flaggedEntries podNs podName css]
  have h : (flaggedEntries podNs podName css).map (podCall dry_run)
      = (flaggedEntries podNs podName css).map
          (fun _ => (⟨"pod", podName, podNs, dry_run⟩ : DeleteCall)) := by
    apply List.map_congr_left
    intro e he
    obtain ⟨h1, h2⟩ := mem_flaggedEntries he
    simp [podCall, h1, h2]
  rw [h, List.map_const']

/-- A pod contributes no entry iff none of its containers is flagged. -/
lemma podEntries_eq_nil {pod : PodRecord} :
    podEntries pod = [] ↔ ∀ cs ∈ pod.containerStatuses, ¬ flagContainer cs := by
  simp [podEntries, flaggedEntries, List.filterMap_eq_nil_iff]

/-- Counting the kept elements of a guarded `filterMap`. -/
lemma length_filterMap_ite {α β : Type _} (p : α → Bool) (m : α → β)
    (l : List α) :
    (l.filterMap (fun e => if p e then some (m e) else none)).length
      = l.countP p := by
  rw [List.length_filterMap_eq_countP]
  apply List.countP_congr
  intro e _
  by_cases h : p e <;> simp [h]

end EksCleanup

open AwsCost EksCleanup

/-- Claim C1, delta-mode classification membership rule: with distinct keys in
the current snapshot, `detect_anomalies` emits exactly one finding — with
reason string `"New service with spend this month"` and `change_pct` fixed
at `100` — for each key whose baseline value is absent or zero (`dictGet`
default `0`) and whose current value strictly exceeds `10`; exactly one
finding — reason `"Cost increased by …"` and `change_pct` the rounded
percent change — for each key with non-zero baseline whose percent change is
`≥` the threshold; and no finding for any other key, nor for any service
absent from the current snapshot. -/
theorem delta_mode_classification (current previous : List (String × ℚ))
    (t : ℚ) (hnd : (current.map Prod.fst).Nodup) :
    (∀ s c, (s, c) ∈ current →
      ((dictGet previous s = 0 → c > 10 →
          (detect_anomalies current previous t).count
            ⟨s, c, 0, 100, "New service with spend this month"⟩ = 1 ∧
          (detect_anomalies current previous t).countP
            (fun a => a.service == s) = 1) ∧
       (dictGet previous s = 0 → ¬ c > 10 →
          (detect_anomalies current previous t).countP
            (fun a => a.service == s) = 0) ∧
       (dictGet previous s ≠ 0 →
          (c - dictGet previous s) / dictGet previous s * 100 ≥ t →
          (detect_anomalies current previous t).count
            ⟨s, c, dictGet previous s,
              round1 ((c - dictGet previous s) / dictGet previous s * 100),
              "Cost increased by "
                ++ fmt1 ((c - dictGet previous s) / dictGet previous s * 100)
                ++ "% vs last month"⟩ = 1 ∧
          (detect_anomalies current previous t).countP
            (fun a => a.service == s) = 1) ∧
       (dictGet previous s ≠ 0 →
          ¬ (c - dictGet previous s) / dictGet previous s * 100 ≥ t →
          (detect_anomalies current previous t).countP
            (fun a => a.service == s) = 0))) ∧
    (∀ a ∈ detect_anomalies current previous t, ∃ c, (a.service, c) ∈ current) := by
  constructor
  · intro s c hmem
    refine ⟨fun h0 h10 => ?_, fun h0 h10 => ?_, fun h0 hge => ?_, fun h0 hge => ?_⟩
    · have hc : classify1 previous t (s, c)
          = some ⟨s, c, 0, 100, "New service with spend this month"⟩ :=
        classify1_new h0 h10
      exact ⟨detect_anomalies_count_eq hnd hmem hc,
        by rw [detect_anomalies_countP_key hnd hmem, hc]; rfl⟩
    · rw [detect_anomalies_countP_key hnd hmem, classify1_new_none h0 h10]; rfl
    · have hc := classify1_inc h0 hge
      exact ⟨detect_anomalies_count_eq hnd hmem hc,
        by rw [detect_anomalies_countP_key hnd hmem, hc]; rfl⟩
    · rw [detect_anomalies_countP_key hnd hmem, classify1_inc_none h0 hge]; rfl
  · intro a ha
    simp only [detect_anomalies, List.mem_mergeSort] at ha
    obtain ⟨kv, hkv, hc⟩ := List.mem_filterMap.mp ha
    refine ⟨kv.2, ?_⟩
    rw [classify1_service hc]
    simpa using hkv

/-- Witness for C1 on Scenario B of the spec: one key, 50% increase over a
25% threshold; the hypotheses hold at this concrete input and exactly one
increase finding is emitted. -/
theorem delta_mode_classification_witness :
    (([(("EC2" : String), (150 : ℚ))].map Prod.fst).Nodup ∧
      dictGet [("EC2", 100)] "EC2" ≠ 0 ∧
      (150 - dictGet [("EC2", 100)] "EC2") / dictGet [("EC2", 100)] "EC2" * 100 ≥ 25) ∧
    (detect_anomalies [("EC2", 150)] [("EC2", 100)] 25).count
      ⟨"EC2", 150, dictGet [("EC2", 100)] "EC2",
        round1 ((150 - dictGet [("EC2", 100)] "EC2") / dictGet [("EC2", 100)] "EC2" * 100),
        "Cost increased by "
          ++ fmt1 ((150 - dictGet [("EC2", 100)] "EC2") / dictGet [("EC2", 100)] "EC2" * 100)
          ++ "% vs last month"⟩ = 1 :=
  ⟨⟨by decide, by decide,
      by rw [show dictGet [("EC2", (100 : ℚ))] "EC2" = 100 from rfl]; norm_num⟩,
    (((delta_mode_classification [("EC2", 150)] [("EC2", 100)] 25
        (by decide)).1 "EC2" 150 (by decide)).2.2.1 (by decide)
        (by rw [show dictGet [("EC2", (100 : ℚ))] "EC2" = 100 from rfl]; norm_num)).1⟩

/-- Claim C3, ordering and stability law: the output of `detect_anomalies` is
sorted by `change_pct` in descending order, and restricted to any one value
of `change_pct` it coincides with the unsorted classification pass, which
visits `current` in encounter order — so ties keep the order in which keys
were first observed, and identical inputs yield identical output (the result
is a pure function of the inputs). -/
theorem ordering_and_stability (current previous : List (String × ℚ)) (t : ℚ) :
    (detect_anomalies current previous t).Pairwise
      (fun a b => b.change_pct ≤ a.change_pct) ∧
    ∀ q : ℚ,
      (detect_anomalies current previous t).filter (fun a => a.change_pct == q)
        = (current.filterMap (classify1 previous t)).filter
            (fun a => a.change_pct == q) :=
  ⟨detect_anomalies_pairwise current previous t,
    fun q => detect_anomalies_filter_pct current previous t q⟩

/-- Claim C6 counterexample: with threshold `0`, a key present in both
snapshots with identical value `50` *does* produce a finding (`0 ≥ 0`), so
the claim is false for arbitrary thresholds. -/
theorem zero_change_counterexample :
    detect_anomalies [("EC2", 50)] [("EC2", 50)] 0
      = [⟨"EC2", 50, 50, 0, "Cost increased by 0.0% vs last month"⟩] := by
  have hd : dictGet [("EC2", (50 : ℚ))] "EC2" = 50 := rfl
  have h0 : dictGet [("EC2", (50 : ℚ))] "EC2" ≠ 0 := by rw [hd]; norm_num
  have hge : ((50 : ℚ) - dictGet [("EC2", 50)] "EC2")
      / dictGet [("EC2", 50)] "EC2" * 100 ≥ 0 := by rw [hd]; norm_num
  have hc := classify1_inc (t := 0) h0 hge
  rw [hd] at hc
  have hpct : ((50 : ℚ) - 50) / 50 * 100 = 0 := by norm_num
  rw [hpct] at hc
  have h1 : round_half_even 0 = 0 := by
    rw [round_half_even]
    norm_num
  have h2 : round1 (0 : ℚ) = 0 := by
    rw [round1, show (0 : ℚ) * 10 = 0 by norm_num, h1]
    norm_num
  have h3 : fmt1 (0 : ℚ) = "0.0" := by
    rw [fmt1, show (0 : ℚ) * 10 = 0 by norm_num, h1]
    norm_num
    decide
  rw [h2, h3] at hc
  unfold detect_anomalies
  simp only [List.filterMap_cons, List.filterMap_nil, hc]
  rw [List.mergeSort_singleton]
  decide

/-- Claim C6 as amended, zero-change safety for positive thresholds: for every
snapshot pair with distinct current keys and every threshold `t > 0`, a key
present in both snapshots with equal baseline and current value produces no
finding.  (For `t ≤ 0` the code does flag such keys, see the
counterexample.) -/
theorem zero_change_safety (current previous : List (String × ℚ)) (t : ℚ)
    (s : String) (c : ℚ) (ht : 0 < t)
    (hnd : (current.map Prod.fst).Nodup)
    (hmem : (s, c) ∈ current) (hb : dictGet previous s = c) :
    ∀ a ∈ detect_anomalies current previous t, a.service ≠ s := by
  have hcl : classify1 previous t (s, c) = none := by
    by_cases hc : c = 0
    · subst hc
      rw [classify1_new_none (hb.trans rfl) (by norm_num)]
    · have h0 : dictGet previous s ≠ 0 := by rw [hb]; exact hc
      apply classify1_inc_none h0
      rw [hb, sub_self, zero_div, zero_mul]
      exact not_le.mpr ht
  intro a ha hs
  have h0 : (detect_anomalies current previous t).countP (fun a => a.service == s)
      = (classify1 previous t (s, c)).toList.length :=
    detect_anomalies_countP_key hnd hmem
  rw [hcl] at h0
  have hz : (detect_anomalies current previous t).countP
      (fun a => a.service == s) = 0 := h0
  rw [List.countP_eq_zero] at hz
  exact absurd (by simp [hs] : (fun a : Anomaly => a.service == s) a = true)
    (by simpa using hz a ha)

/-- Witness for C6 (amended) at a concrete input: with threshold 25, the
unchanged key EC2 yields no finding record. -/
theorem zero_change_safety_witness :
    ((0 : ℚ) < 25 ∧ ([(("EC2" : String), (50 : ℚ)), ("S3", 100)].map Prod.fst).Nodup ∧
      dictGet [("EC2", 50), ("S3", 10)] "EC2" = 50) ∧
    (⟨"EC2", 50, 50, 0, "r"⟩ : Anomaly)
      ∉ detect_anomalies [("EC2", 50), ("S3", 100)] [("EC2", 50), ("S3", 10)] 25 :=
  ⟨⟨by norm_num, by decide, by decide⟩,
    fun h => zero_change_safety [("EC2", 50), ("S3", 100)] [("EC2", 50), ("S3", 10)]
      25 "EC2" 50 (by norm_num) (by decide) (by decide) (by decide) _ h rfl⟩

/-- A whole listing contributes no pod entry iff no container of any pod is
flagged. -/
lemma flatMap_podEntries_eq_nil {items : List PodRecord} :
    items.flatMap podEntries = []
      ↔ ∀ pod ∈ items, ∀ cs ∈ pod.containerStatuses, ¬ flagContainer cs := by
  rw [List.flatMap_eq_nil_iff]
  constructor
  · intro h pod hp
    exact podEntries_eq_nil.mp (h pod hp)
  · intro h pod hp
    exact podEntries_eq_nil.mpr (h pod hp)

/-- The exit decision, in terms of the final report. -/
lemma eks_exit_code_eq_zero (r : CleanupReport) :
    eks_exit_code r = 0 ↔ (r.crashloop_pods = [] ∧ r.errors = []) := by
  rw [eks_exit_code]
  by_cases h1 : r.crashloop_pods.isEmpty = true <;>
    by_cases h2 : r.errors.isEmpty = true <;>
      simp_all [List.isEmpty_iff]

/-- Claim C7, state-mode pod rule: a container status is recorded as a problem
pod iff its waiting reason is in
`{CrashLoopBackOff, Error, OOMKilled, ImagePullBackOff}`, or the reason is
`CrashLoopBackOff` and its restart count exceeds the fixed floor `5`; the
scan records exactly those containers and nothing else. -/
theorem state_mode_pod_rule (deleteOk : DeleteCall → Bool)
    (items : List PodRecord) (report : CleanupReport) (dry_run delete : Bool) :
    (find_crashloop_pods deleteOk (some items) report dry_run delete).1.crashloop_pods
      = report.crashloop_pods ++ items.flatMap (fun pod =>
          pod.containerStatuses.filterMap (fun cs =>
            if cs.waitingReason ∈ ["CrashLoopBackOff", "Error", "OOMKilled", "ImagePullBackOff"]
                ∨ (cs.waitingReason = "CrashLoopBackOff" ∧ cs.restartCount > 5) then
              some ⟨pod.«namespace», pod.name, cs.name, cs.waitingReason, cs.restartCount⟩
            else none)) := by
  rw [find_crashloop_pods_eq]
  show report.crashloop_pods ++ _ = report.crashloop_pods ++ _
  congr 1
  rw [List.flatMap, List.flatMap]
  congr 1
  apply List.map_congr_left
  intro pod _
  rw [podEntries, flaggedEntries]
  apply List.filterMap_congr
  intro cs _
  simp only [← flagContainer_iff]

/-- Claim C8, stale-job rule: a job record with a parseable creation timestamp
is recorded as stale iff it carries a condition of type `Complete` or
`Failed` and `now` minus its creation time strictly exceeds the configured
maximum age (in hours, i.e. `max_age_hours * 3600` seconds). -/
theorem stale_job_rule (deleteOk : DeleteCall → Bool) (items : List JobRecord)
    (report : CleanupReport) (now max_age_hours : Int) (dry_run delete : Bool) :
    (find_completed_jobs deleteOk (some items) report now max_age_hours
        dry_run delete).1.completed_jobs
      = report.completed_jobs ++ items.filterMap (fun job =>
          match job.creationTimestamp with
          | none => none
          | some creation_time =>
            if (∃ c ∈ job.conditions, c.type = some "Complete" ∨ c.type = some "Failed")
                ∧ now - creation_time > max_age_hours * 3600 then
              some ⟨job.«namespace», job.name, job.creationTimestamp⟩
            else none) := by
  rw [find_completed_jobs_eq]
  show report.completed_jobs ++ _ = report.completed_jobs ++ _
  congr 1
  apply List.filterMap_congr
  intro job _
  cases hts : job.creationTimestamp with
  | none => simp [staleJobEntry, hts]
  | some ct =>
    simp only [staleJobEntry, hts]
    apply if_congr _ rfl rfl
    rw [Bool.and_eq_true, List.any_eq_true]
    constructor
    · rintro ⟨⟨c, hc, hcc⟩, hlt⟩
      rw [decide_eq_true_eq] at hlt
      refine ⟨⟨c, hc, ?_⟩, by omega⟩
      simpa using hcc
    · rintro ⟨⟨c, hc, hcc⟩, hgt⟩
      refine ⟨⟨c, hc, ?_⟩, ?_⟩
      · simpa using hcc
      · rw [decide_eq_true_eq]
        omega

/-- Claim C9, malformed-timestamp skip: a job whose creation timestamp is
missing or unparseable is invisible to the scan — the run is identical to
the run on the listing without that record: no finding, no error entry, no
effect on the processing of the remaining records. -/
theorem malformed_timestamp_skip (deleteOk : DeleteCall → Bool)
    (items1 items2 : List JobRecord) (job : JobRecord) (report : CleanupReport)
    (now max_age_hours : Int) (dry_run delete : Bool)
    (hts : job.creationTimestamp = none) :
    find_completed_jobs deleteOk (some (items1 ++ job :: items2)) report now
        max_age_hours dry_run delete
      = find_completed_jobs deleteOk (some (items1 ++ items2)) report now
          max_age_hours dry_run delete := by
  rw [find_completed_jobs_eq, find_completed_jobs_eq]
  have hj : staleJobEntry (now - max_age_hours * 3600) job = none := by
    simp [staleJobEntry, hts]
  simp [jobActs, jobCallsOf, List.filterMap_append, List.filterMap_cons, hj]

/-- Witness for C9: a record with a malformed timestamp between two stale
jobs changes nothing about the run. -/
theorem malformed_timestamp_skip_witness :
    (⟨"batch", "bad", [⟨some "Complete"⟩], none⟩ : JobRecord).creationTimestamp = none ∧
    find_completed_jobs (fun _ => true)
        (some ([⟨"a", "j1", [⟨some "Complete"⟩], some 0⟩]
          ++ (⟨"batch", "bad", [⟨some "Complete"⟩], none⟩ : JobRecord)
            :: [⟨"b", "j2", [⟨some "Failed"⟩], some 10⟩]))
        CleanupReport.empty 1000000 24 false true
      = find_completed_jobs (fun _ => true)
          (some ([⟨"a", "j1", [⟨some "Complete"⟩], some 0⟩]
            ++ [⟨"b", "j2", [⟨some "Failed"⟩], some 10⟩]))
          CleanupReport.empty 1000000 24 false true :=
  ⟨rfl, malformed_timestamp_skip (fun _ => true)
    [⟨"a", "j1", [⟨some "Complete"⟩], some 0⟩]
    [⟨"b", "j2", [⟨some "Failed"⟩], some 10⟩]
    ⟨"batch", "bad", [⟨some "Complete"⟩], none⟩
    CleanupReport.empty 1000000 24 false true rfl⟩

/-- Claim C10, implicit per-container multiplicity: a pod whose status lists
`k` flagged containers contributes `k` separate findings, each naming that
pod, and with deletion requested the scan issues `k` identical delete
invocations against that same pod in one run. -/
theorem per_container_multiplicity (deleteOk : DeleteCall → Bool)
    (dry_run : Bool) (pod : PodRecord) (report : CleanupReport) :
    ((find_crashloop_pods deleteOk (some [pod]) report dry_run true).1.crashloop_pods.length
       = report.crashloop_pods.length + pod.containerStatuses.countP flagContainer) ∧
    (∀ e ∈ (find_crashloop_pods deleteOk (some [pod]) report dry_run true).1.crashloop_pods.drop
        report.crashloop_pods.length,
      e.pod = pod.name ∧ e.«namespace» = pod.«namespace») ∧
    ((find_crashloop_pods deleteOk (some [pod]) report dry_run true).2
       = List.replicate (pod.containerStatuses.countP flagContainer)
           ⟨"pod", pod.name, pod.«namespace», dry_run⟩) := by
  have h := find_crashloop_pods_eq deleteOk [pod] report dry_run true
  have hpods : (find_crashloop_pods deleteOk (some [pod]) report dry_run true).1.crashloop_pods
      = report.crashloop_pods ++ podEntries pod := by
    rw [h]
    show report.crashloop_pods ++ [pod].flatMap podEntries
      = report.crashloop_pods ++ podEntries pod
    simp
  have hcalls : (find_crashloop_pods deleteOk (some [pod]) report dry_run true).2
      = (podEntries pod).map (podCall dry_run) := by
    rw [h]
    show podCallsOf deleteOk dry_run true [pod] = (podEntries pod).map (podCall dry_run)
    simp [podCallsOf]
  refine ⟨?_, ?_, ?_⟩
  · rw [hpods, List.length_append, podEntries, length_flaggedEntries]
  · intro e he
    rw [hpods, List.drop_left] at he
    rw [podEntries] at he
    obtain ⟨h1, h2⟩ := mem_flaggedEntries he
    exact ⟨h2, h1⟩
  · rw [hcalls, podEntries, map_podCall_flaggedEntries]

/-- Witness for C10: a pod with two flagged containers yields two identical
delete invocations against that pod. -/
theorem per_container_multiplicity_witness :
    (find_crashloop_pods (fun _ => true)
        (some [⟨"default", "api", [⟨"c1", "Error", 0⟩, ⟨"c2", "OOMKilled", 1⟩]⟩])
        CleanupReport.empty true true).2
      = List.replicate
          (((⟨"default", "api", [⟨"c1", "Error", 0⟩, ⟨"c2", "OOMKilled", 1⟩]⟩ :
              PodRecord).containerStatuses).countP flagContainer)
          ⟨"pod", "api", "default", true⟩ :=
  (per_container_multiplicity (fun _ => true) true
    ⟨"default", "api", [⟨"c1", "Error", 0⟩, ⟨"c2", "OOMKilled", 1⟩]⟩
    CleanupReport.empty).2.2

/-- Claim C4 counterexample: a failing delete leaves *no* record in the
report.  With the delete action failing on every invocation, one flagged pod
and `--delete-crashloop`, the scan issues exactly one delete invocation, the
finding stays recorded, but the resulting report is identical to the report
of the run that never attempted deletion — in particular no outcome with
`success=false` (nor any detail string) is appended anywhere, refuting the
claim that a failure appends a `RemediationOutcome` to the report. -/
theorem remediation_failure_counterexample :
    ((find_crashloop_pods (fun _ => false)
        (some [⟨"default", "api", [⟨"app", "CrashLoopBackOff", 7⟩]⟩])
        CleanupReport.empty false true).1
      = (find_crashloop_pods (fun _ => false)
          (some [⟨"default", "api", [⟨"app", "CrashLoopBackOff", 7⟩]⟩])
          CleanupReport.empty false false).1) ∧
    ((find_crashloop_pods (fun _ => false)
        (some [⟨"default", "api", [⟨"app", "CrashLoopBackOff", 7⟩]⟩])
        CleanupReport.empty false true).2
      = [⟨"pod", "api", "default", false⟩]) ∧
    ((find_crashloop_pods (fun _ => false)
        (some [⟨"default", "api", [⟨"app", "CrashLoopBackOff", 7⟩]⟩])
        CleanupReport.empty false true).1.crashloop_pods
      = [⟨"default", "api", "app", "CrashLoopBackOff", 7⟩]) ∧
    ((find_crashloop_pods (fun _ => false)
        (some [⟨"default", "api", [⟨"app", "CrashLoopBackOff", 7⟩]⟩])
        CleanupReport.empty false true).1.actions_taken = []) := by
  decide

/-- Claim C4 as amended, remediation-failure isolation: for every finding whose
delete action fails, the finding remains in the report and the scan of the
remaining findings continues (no short-circuit, no error) — but no record of
the failure is appended to the report; the failure is only logged.  Stated
as: the recorded findings and the error list do not depend on the success
function at all, and `actions_taken` collects exactly the successful
deletions, for both scans. -/
theorem remediation_failure_isolation (deleteOk : DeleteCall → Bool)
    (items : List PodRecord) (jitems : List JobRecord) (report : CleanupReport)
    (now max_age_hours : Int) (dry_run delete : Bool) :
    ((find_crashloop_pods deleteOk (some items) report dry_run delete).1.crashloop_pods
       = report.crashloop_pods ++ items.flatMap podEntries) ∧
    ((find_crashloop_pods deleteOk (some items) report dry_run delete).1.errors
       = report.errors) ∧
    ((find_crashloop_pods deleteOk (some items) report dry_run true).1.actions_taken
       = report.actions_taken ++ (items.flatMap podEntries).filterMap
           (fun e => if deleteOk (podCall dry_run e) then some (podMsg e) else none)) ∧
    ((find_completed_jobs deleteOk (some jitems) report now max_age_hours
        dry_run delete).1.completed_jobs
       = report.completed_jobs
         ++ jitems.filterMap (staleJobEntry (now - max_age_hours * 3600))) ∧
    ((find_completed_jobs deleteOk (some jitems) report now max_age_hours
        dry_run delete).1.errors = report.errors) ∧
    ((find_completed_jobs deleteOk (some jitems) report now max_age_hours
        dry_run true).1.actions_taken
       = report.actions_taken
         ++ (jitems.filterMap (staleJobEntry (now - max_age_hours * 3600))).filterMap
             (fun e => if deleteOk (jobCall dry_run e) then some (jobMsg e) else none)) := by
  simp [find_crashloop_pods_eq, find_completed_jobs_eq, podActs, jobActs]

/-- Claim C5 counterexample: execute mode with a failing delete records fewer
outcomes than findings.  One stale job, `--delete-jobs`, the delete fails:
one finding, one delete invocation, zero recorded outcomes — refuting
"outcome count equals Finding count in execute mode". -/
theorem remediation_outcome_count_counterexample :
    ((find_completed_jobs (fun _ => false)
        (some [⟨"batch", "migrate", [⟨some "Failed"⟩], some 0⟩])
        CleanupReport.empty 1000000 24 false true).1.completed_jobs.length = 1) ∧
    ((find_completed_jobs (fun _ => false)
        (some [⟨"batch", "migrate", [⟨some "Failed"⟩], some 0⟩])
        CleanupReport.empty 1000000 24 false true).2.length = 1) ∧
    ((find_completed_jobs (fun _ => false)
        (some [⟨"batch", "migrate", [⟨some "Failed"⟩], some 0⟩])
        CleanupReport.empty 1000000 24 false true).1.actions_taken.length = 0) := by
  decide

/-- Claim C5 as amended, remediation gating: no delete invocation is issued when
the delete flag is off; with the flag on, the invocations are exactly one
per newly recorded finding (hence none for a resource that was not
classified); and in execute mode the number of recorded outcome lines equals
the number of *successful* delete invocations (failures are logged only), so
it equals the finding count only when every delete succeeds. -/
theorem remediation_gating (deleteOk : DeleteCall → Bool)
    (items : List PodRecord) (jitems : List JobRecord) (report : CleanupReport)
    (now max_age_hours : Int) (dry_run : Bool) :
    ((find_crashloop_pods deleteOk (some items) report dry_run false).2 = []) ∧
    ((find_completed_jobs deleteOk (some jitems) report now max_age_hours
        dry_run false).2 = []) ∧
    ((find_crashloop_pods deleteOk (some items) report dry_run true).2
       = ((find_crashloop_pods deleteOk (some items) report dry_run true).1.crashloop_pods.drop
            report.crashloop_pods.length).map (podCall dry_run)) ∧
    ((find_completed_jobs deleteOk (some jitems) report now max_age_hours
        dry_run true).2
       = ((find_completed_jobs deleteOk (some jitems) report now max_age_hours
            dry_run true).1.completed_jobs.drop
              report.completed_jobs.length).map (jobCall dry_run)) ∧
    ((find_crashloop_pods deleteOk (some items) report dry_run true).1.actions_taken.length
       = report.actions_taken.length
         + ((find_crashloop_pods deleteOk (some items) report dry_run true).2.countP deleteOk)) ∧
    ((find_completed_jobs deleteOk (some jitems) report now max_age_hours
        dry_run true).1.actions_taken.length
       = report.actions_taken.length
         + ((find_completed_jobs deleteOk (some jitems) report now max_age_hours
              dry_run true).2.countP deleteOk)) := by
  simp only [find_crashloop_pods_eq, find_completed_jobs_eq]
  refine ⟨?_, ?_, ?_, ?_, ?_, ?_⟩
  · simp [podCallsOf]
  · simp [jobCallsOf]
  · show podCallsOf deleteOk dry_run true items
      = ((report.crashloop_pods ++ items.flatMap podEntries).drop
          report.crashloop_pods.length).map (podCall dry_run)
    rw [List.drop_left]
    simp [podCallsOf]
  · show jobCallsOf deleteOk (now - max_age_hours * 3600) dry_run true jitems
      = ((report.completed_jobs
          ++ jitems.filterMap (staleJobEntry (now - max_age_hours * 3600))).drop
            report.completed_jobs.length).map (jobCall dry_run)
    rw [List.drop_left]
    simp [jobCallsOf]
  · show (report.actions_taken ++ podActs deleteOk dry_run true items).length
      = report.actions_taken.length + (podCallsOf deleteOk dry_run true items).countP deleteOk
    rw [List.length_append]
    congr 1
    rw [podActs, podCallsOf]
    simp only [if_true, eq_self_iff_true, ite_true]
    rw [length_filterMap_ite, List.countP_map]
    rfl
  · show (report.actions_taken
        ++ jobActs deleteOk (now - max_age_hours * 3600) dry_run true jitems).length
      = report.actions_taken.length
        + (jobCallsOf deleteOk (now - max_age_hours * 3600) dry_run true jitems).countP deleteOk
    rw [List.length_append]
    congr 1
    rw [jobActs, jobCallsOf]
    simp only [if_true, eq_self_iff_true, ite_true]
    rw [length_filterMap_ite, List.countP_map]
    rfl

/-- Claim C2 counterexample: a run whose only finding is a stale job exits
with code `0` — findings are non-empty yet the exit signal is zero, because
`main` tests only `crashloop_pods` and `errors` (and the cost tool never
sets a non-zero exit code at all). -/
theorem exit_signal_counterexample :
    ((eks_main (fun _ => true) (some [])
        (some [⟨"batch", "migrate", [⟨some "Complete"⟩], some 0⟩])
        false false false 1000000 24).1.completed_jobs
      = [⟨"batch", "migrate", some 0⟩]) ∧
    ((eks_main (fun _ => true) (some [])
        (some [⟨"batch", "migrate", [⟨some "Complete"⟩], some 0⟩])
        false false false 1000000 24).2.2 = 0) := by
  decide

/-- Claim C2 as amended, exit-signal rule as implemented: the EKS tool's exit
code is zero iff the problem-pod finding list and the error list are both
empty — equivalently, iff both listings succeeded and no container was
flagged.  Stale-job findings never influence the exit code, and the cost
tool's `main` contains no `sys.exit`, so its exit code is `0` regardless of
the anomaly list. -/
theorem exit_signal_rule (deleteOk : DeleteCall → Bool)
    (podsData : Option (List PodRecord)) (jobsData : Option (List JobRecord))
    (dry_run delete_crashloop delete_jobs : Bool) (now job_max_age_hours : Int) :
    ((eks_main deleteOk podsData jobsData dry_run delete_crashloop delete_jobs
        now job_max_age_hours).2.2 = 0 ↔
      ((eks_main deleteOk podsData jobsData dry_run delete_crashloop delete_jobs
          now job_max_age_hours).1.crashloop_pods = [] ∧
        (eks_main deleteOk podsData jobsData dry_run delete_crashloop delete_jobs
          now job_max_age_hours).1.errors = [])) ∧
    ((eks_main deleteOk podsData jobsData dry_run delete_crashloop delete_jobs
        now job_max_age_hours).2.2 = 0 ↔
      ((∃ pitems, podsData = some pitems ∧
          ∀ pod ∈ pitems, ∀ cs ∈ pod.containerStatuses, ¬ flagContainer cs) ∧
        jobsData ≠ none)) ∧
    (∀ anomalies, aws_main_exit_code anomalies = 0) := by
  refine ⟨eks_exit_code_eq_zero _, ?_, fun _ => rfl⟩
  rw [show (eks_main deleteOk podsData jobsData dry_run delete_crashloop delete_jobs
      now job_max_age_hours).2.2
    = eks_exit_code (eks_main deleteOk podsData jobsData dry_run delete_crashloop
        delete_jobs now job_max_age_hours).1 from rfl]
  rw [eks_exit_code_eq_zero]
  cases podsData with
  | none =>
    have herr : (eks_main deleteOk none jobsData dry_run delete_crashloop
        delete_jobs now job_max_age_hours).1.errors ≠ [] := by
      cases jobsData with
      | none => simp [eks_main, find_crashloop_pods, find_completed_jobs,
          CleanupReport.empty]
      | some jitems =>
        simp [eks_main, find_crashloop_pods, find_completed_jobs_eq,
          CleanupReport.empty]
    simp [herr]
  | some pitems =>
    cases jobsData with
    | none =>
      have herr : (eks_main deleteOk (some pitems) none dry_run delete_crashloop
          delete_jobs now job_max_age_hours).1.errors ≠ [] := by
        simp [eks_main, find_crashloop_pods_eq, find_completed_jobs,
          CleanupReport.empty]
      simp [herr]
    | some jitems =>
      have hcrash : (eks_main deleteOk (some pitems) (some jitems) dry_run
          delete_crashloop delete_jobs now job_max_age_hours).1.crashloop_pods
          = pitems.flatMap podEntries := by
        simp [eks_main, find_crashloop_pods_eq, find_completed_jobs_eq,
          CleanupReport.empty]
      have herr : (eks_main deleteOk (some pitems) (some jitems) dry_run
          delete_crashloop delete_jobs now job_max_age_hours).1.errors = [] := by
        simp [eks_main, find_crashloop_pods_eq, find_completed_jobs_eq,
          CleanupReport.empty]
      rw [hcrash, herr]
      constructor
      · rintro ⟨hc, -⟩
        exact ⟨⟨pitems, rfl, flatMap_podEntries_eq_nil.mp hc⟩, by simp⟩
      · rintro ⟨⟨pitems', heq, hall⟩, -⟩
        have hp : pitems' = pitems := by
          injection heq with h
          exact h.symm
        subst hp
        exact ⟨flatMap_podEntries_eq_nil.mpr hall, rfl⟩

/-- Witness for C2 (amended): empty successful listings exit `0`. -/
theorem exit_signal_rule_witness :
    (eks_main (fun _ => true) (some []) (some []) false false false 0 24).2.2 = 0 :=
  (exit_signal_rule (fun _ => true) (some []) (some []) false false false 0 24).2.1.mpr
    ⟨⟨[], rfl, by simp⟩, by simp⟩
